import Mathlib

/-!
Shallow embedding of the Adaptive Rotated Convolution (ARC) primitive of
`mmdet/models/backbones/arc_sk_resnet.py` (lines 809-1082): the routing
function `RountingFunction`, the rotation-operator builder
`_get_rotation_matrix`, the weight synthesizer `batch_rotate_multiweight`
and the orchestrating module `AdaptiveRotatedConv2d`.

Modelling conventions:
* Scalars are elements of an arbitrary `LinearOrderedField R`; the
  repository's float tensors are modelled exactly.  The transcendental
  functions used by the source (`torch.cos`, `torch.sin`, `torch.exp`,
  `torch.sqrt`) are passed as function parameters so that the definitions
  stay computable; the `...Real` wrappers instantiate them with
  `Real.cos`, `Real.sin`, `Real.exp`, `Real.sqrt`.
* A 4-dimensional tensor is a record of its four extents together with a
  total indexing function `ℕ → ℕ → ℕ → ℕ → R`; reads outside the extents
  are junk values that no theorem depends on.  Reshapes and permutes are
  translated into the equivalent row-major index arithmetic, stage by
  stage, following the source comments.
* `torch.view` / `torch.reshape` raise a runtime error when the number of
  elements does not match; fallible operations therefore return `Option`.
* `nn.Dropout` is modelled in evaluation mode (identity), and
  `nn.BatchNorm2d` in evaluation mode (normalisation by stored running
  statistics), matching the deterministic reading of the spec.
-/

namespace ARC

variable {R : Type} [LinearOrderedField R]

/-- The rows of the `θ ≥ 0` 9×9 template of `_get_rotation_matrix`
(`rot_mat_positive`, source lines 882-899), transcribed row by row from
the nested `torch.cat` calls; `x` stands for `cos θ` and `y` for `sin θ`,
and the source's abbreviations `a = x - y`, `b = x*y`, `c = x + y` are
inlined. -/
def posRows (x y : R) : List (List R) :=
  [[x - y, 1 - (x - y), 0, 0, 0, 0, 0, 0, 0],
   [0, x - x * y, x * y, 0, 1 - (x + y) + x * y, y - x * y, 0, 0, 0],
   [0, 0, x - y, 0, 0, 1 - (x - y), 0, 0, 0],
   [x * y, y - x * y, 0, x - x * y, 1 - (x + y) + x * y, 0, 0, 0, 0],
   [0, 0, 0, 0, 1, 0, 0, 0, 0],
   [0, 0, 0, 0, 1 - (x + y) + x * y, x - x * y, 0, y - x * y, x * y],
   [0, 0, 0, 1 - (x - y), 0, 0, x - y, 0, 0],
   [0, 0, 0, y - x * y, 1 - (x + y) + x * y, 0, x * y, x - x * y, 0],
   [0, 0, 0, 0, 0, 0, 0, 1 - (x - y), x - y]]

/-- The rows of the `θ < 0` 9×9 template of `_get_rotation_matrix`
(`rot_mat_negative`, source lines 901-919); `x = cos θ`, `y = sin θ`,
with `a = x - y`, `b = x*y`, `c = x + y` inlined. -/
def negRows (x y : R) : List (List R) :=
  [[x + y, 0, 0, 1 - (x + y), 0, 0, 0, 0, 0],
   [-(x * y), x + x * y, 0, x * y - y, 1 - (x - y) - x * y, 0, 0, 0, 0],
   [0, 1 - (x + y), x + y, 0, 0, 0, 0, 0, 0],
   [0, 0, 0, x + x * y, 1 - (x - y) - x * y, 0, -(x * y), x * y - y, 0],
   [0, 0, 0, 0, 1, 0, 0, 0, 0],
   [0, x * y - y, -(x * y), 0, 1 - (x - y) - x * y, x + x * y, 0, 0, 0],
   [0, 0, 0, 0, 0, 0, x + y, 1 - (x + y), 0],
   [0, 0, 0, 0, 1 - (x - y) - x * y, x * y - y, 0, x + x * y, -(x * y)],
   [0, 0, 0, 0, 0, 1 - (x + y), 0, 0, x + y]]

/-- Entry `(p, q)` of the `θ ≥ 0` template; indices outside 9×9 read 0. -/
def posTemplate (x y : R) : ℕ → ℕ → R := fun p q =>
  ((posRows x y).getD p []).getD q 0

/-- Entry `(p, q)` of the `θ < 0` template; indices outside 9×9 read 0. -/
def negTemplate (x y : R) : ℕ → ℕ → R := fun p q =>
  ((negRows x y).getD p []).getD q 0

/-- One entry of the blended rotation operator for a scalar angle `θ`
(source lines 921-923): the boolean mask `θ ≥ 0` is converted to a
`{0,1}` float and the two templates are blended as
`mask * positive + (1 - mask) * negative`. -/
def rotationEntry (cs sn : R → R) (θ : R) (p q : ℕ) : R :=
  (if 0 ≤ θ then (1 : R) else 0) * posTemplate (cs θ) (sn θ) p q +
    (1 - if 0 ≤ θ then (1 : R) else 0) * negTemplate (cs θ) (sn θ) p q

/-- `_get_rotation_matrix` (source lines 869-926): maps an angle tensor of
shape `(bs, g)` to the `(bs, g, 9, 9)` stack of blended rotation
operators.  The source flattens `(bs, g)` to `bs·g`, builds the stacked
templates with axes `(9, 9, bs·g)`, blends them with the sign mask, then
permutes/reshapes back to `(bs, g, 9, 9)`; the net effect on indices is
that entry `(s, i, p, q)` is the blended entry for angle `thetas s i`. -/
def getRotationMatrix (cs sn : R → R) (thetas : ℕ → ℕ → R) :
    ℕ → ℕ → ℕ → ℕ → R := fun s i p q =>
  rotationEntry cs sn (thetas s i) p q

/-- A rank-4 tensor: four extents plus a total indexing function.
Reads outside the extents return junk that no theorem depends on. -/
structure Tensor4 (R : Type) where
  d0 : ℕ
  d1 : ℕ
  d2 : ℕ
  d3 : ℕ
  data : ℕ → ℕ → ℕ → ℕ → R

/-- `batch_rotate_multiweight` (source lines 929-1007).  Inputs: the
kernel bank `w` of shape `(n, Cout, Cin, 3, 3)`, gatings `lambdas` and
angles `thetas` of shape `(b, n)`.  Stage 1 builds the rotation operators
and scales each by its gating (lines 957-967); stage 1.3 permutes
`(b,n,9,9)` to `(b,9,n,9)` and reshapes to `(b·9, n·9)` (lines 972-973),
which in row-major index arithmetic reads entry `(p,q)` from
`(p/9, q/9, p%9, q%9)`; stage 2 permutes the bank to `(n,3,3,Cout,Cin)`
and views it as `(n·9, Cout·Cin)` (lines 981-982); stage 3 multiplies the
per-variant `(b·9, 9)` and `(9, Cout·Cin)` slices and stacks the results
along a new middle axis, giving the `(b·9, n, Cout·Cin)` tensor `t`
(lines 989-993).  Stage 4 (line 1003) calls
`view(b, 3, 3, 4, Cout, Cin)` with a HARD-CODED kernel-variant count 4;
`torch.view` raises unless the element counts agree, which is the
`if` guard below.  When it succeeds, the subsequent
`permute(0, 3, 4, 5, 1, 2)` and `reshape(b*n*Cout, Cin, 3, 3)`
(lines 1004-1005) amount to reading output entry `(o, ci, u, v)` from
flat position `((o/(4·Cout))·9 + u·3+v, (o/Cout) % 4, (o%Cout)·Cin + ci)`
of `t`. -/
def batchRotateMultiweight (cs sn : R → R) (b n Cout Cin : ℕ)
    (w : ℕ → ℕ → ℕ → ℕ → ℕ → R) (lambdas thetas : ℕ → ℕ → R) :
    Option (Tensor4 R) :=
  let rot := getRotationMatrix cs sn thetas
  let gated : ℕ → ℕ → ℕ → ℕ → R := fun s i p q => rot s i p q * lambdas s i
  let rm : ℕ → ℕ → R := fun p q => gated (p / 9) (q / 9) (p % 9) (q % 9)
  let wm : ℕ → ℕ → R := fun r s =>
    w (r / 9) (s / Cin) (s % Cin) (r % 9 / 3) (r % 9 % 3)
  let t : ℕ → ℕ → ℕ → R := fun p i s =>
    ∑ u ∈ Finset.range 9, rm p (i * 9 + u) * wm (i * 9 + u) s
  if b * 9 * n * (Cout * Cin) = b * (3 * 3 * 4) * (Cout * Cin) then
    some { d0 := b * n * Cout, d1 := Cin, d2 := 3, d3 := 3,
           data := fun o ci u v =>
             t (o / (4 * Cout) * 9 + (u * 3 + v)) (o / Cout % 4)
               (o % Cout * Cin + ci) }
  else none

/-- `batch_rotate_multiweight` with the trigonometric functions the
source actually uses. -/
noncomputable def batchRotateMultiweightReal :=
  @batchRotateMultiweight ℝ _ Real.cos Real.sin

theorem posTemplate_row_sum (x y : R) (r : ℕ) (hr : r < 9) :
    ∑ q ∈ Finset.range 9, posTemplate x y r q = 1 := by
  interval_cases r <;>
    · simp [posTemplate, posRows, Finset.sum_range_succ]; try ring

theorem negTemplate_row_sum (x y : R) (r : ℕ) (hr : r < 9) :
    ∑ q ∈ Finset.range 9, negTemplate x y r q = 1 := by
  interval_cases r <;>
    · simp [negTemplate, negRows, Finset.sum_range_succ]; try ring

theorem rotationEntry_row_sum (cs sn : R → R) (θ : R) (r : ℕ) (hr : r < 9) :
    ∑ q ∈ Finset.range 9, rotationEntry cs sn θ r q = 1 := by
  simp only [rotationEntry, Finset.sum_add_distrib, ← Finset.mul_sum,
    posTemplate_row_sum _ _ r hr, negTemplate_row_sum _ _ r hr]
  ring

theorem posTemplate_identity (p q : ℕ) (hp : p < 9) (hq : q < 9) :
    posTemplate (1 : R) 0 p q = if p = q then 1 else 0 := by
  interval_cases p <;> interval_cases q <;> simp [posTemplate, posRows]

theorem negTemplate_identity (p q : ℕ) (hp : p < 9) (hq : q < 9) :
    negTemplate (1 : R) 0 p q = if p = q then 1 else 0 := by
  interval_cases p <;> interval_cases q <;> simp [negTemplate, negRows]

/-- C3: for every angle tensor, every sample `s`, every kernel variant
`i` and every row `r` of the 9×9 operator built by
`_get_rotation_matrix`, the row sums to 1 (exactly, in exact
arithmetic), and the same holds for the `θ ≥ 0` template, the `θ < 0`
template, and hence their masked blend. -/
theorem rotation_operator_rows_sum_to_one (thetas : ℕ → ℕ → ℝ)
    (s i r : ℕ) (hr : r < 9) :
    ∑ q ∈ Finset.range 9,
        getRotationMatrix Real.cos Real.sin thetas s i r q = 1 ∧
    ∑ q ∈ Finset.range 9,
        posTemplate (Real.cos (thetas s i)) (Real.sin (thetas s i)) r q = 1 ∧
    ∑ q ∈ Finset.range 9,
        negTemplate (Real.cos (thetas s i)) (Real.sin (thetas s i)) r q = 1 :=
  ⟨rotationEntry_row_sum Real.cos Real.sin (thetas s i) r hr,
   posTemplate_row_sum _ _ r hr, negTemplate_row_sum _ _ r hr⟩

/-- Witness for C3 at a concrete angle tensor and row. -/
theorem rotation_operator_rows_sum_to_one_witness :
    (0 : ℕ) < 9 ∧
    (∑ q ∈ Finset.range 9,
        getRotationMatrix Real.cos Real.sin (fun _ _ => (1 : ℝ)) 0 0 0 q = 1 ∧
    ∑ q ∈ Finset.range 9,
        posTemplate (Real.cos ((1 : ℝ))) (Real.sin ((1 : ℝ))) 0 q = 1 ∧
    ∑ q ∈ Finset.range 9,
        negTemplate (Real.cos ((1 : ℝ))) (Real.sin ((1 : ℝ))) 0 q = 1) :=
  ⟨by norm_num,
   rotation_operator_rows_sum_to_one (fun _ _ => (1 : ℝ)) 0 0 0 (by norm_num)⟩

/-- C4: at angle `θ = 0` the operator built by `_get_rotation_matrix` is
exactly the 9×9 identity, and the positive-branch and negative-branch
templates agree there. -/
theorem rotation_operator_identity_at_zero (thetas : ℕ → ℕ → ℝ)
    (s i p q : ℕ) (h0 : thetas s i = 0) (hp : p < 9) (hq : q < 9) :
    getRotationMatrix Real.cos Real.sin thetas s i p q =
      (if p = q then 1 else 0) ∧
    posTemplate (Real.cos (thetas s i)) (Real.sin (thetas s i)) p q =
      negTemplate (Real.cos (thetas s i)) (Real.sin (thetas s i)) p q := by
  have hc : Real.cos (thetas s i) = 1 := by rw [h0, Real.cos_zero]
  have hsn : Real.sin (thetas s i) = 0 := by rw [h0, Real.sin_zero]
  constructor
  · show rotationEntry Real.cos Real.sin (thetas s i) p q = _
    rw [rotationEntry, hc, hsn, posTemplate_identity p q hp hq,
      negTemplate_identity p q hp hq, if_pos (le_of_eq h0.symm)]
    ring
  · rw [hc, hsn, posTemplate_identity p q hp hq,
      negTemplate_identity p q hp hq]

/-- Witness for C4 at a concrete zero angle tensor and entry. -/
theorem rotation_operator_identity_at_zero_witness :
    ((fun _ _ => (0 : ℝ)) 0 0 = 0 ∧ (0 : ℕ) < 9 ∧ (1 : ℕ) < 9) ∧
    (getRotationMatrix Real.cos Real.sin (fun _ _ => (0 : ℝ)) 0 0 0 1 =
        (if (0 : ℕ) = 1 then 1 else 0) ∧
    posTemplate (Real.cos ((fun _ _ => (0 : ℝ)) 0 0))
        (Real.sin ((fun _ _ => (0 : ℝ)) 0 0)) 0 1 =
      negTemplate (Real.cos ((fun _ _ => (0 : ℝ)) 0 0))
        (Real.sin ((fun _ _ => (0 : ℝ)) 0 0)) 0 1) :=
  ⟨⟨rfl, by norm_num, by norm_num⟩,
   rotation_operator_identity_at_zero (fun _ _ => (0 : ℝ)) 0 0 0 1 rfl
     (by norm_num) (by norm_num)⟩

/-- C6: in a synthesized weight batch, the slice of kernel variant `i`
of sample `s` (output rows `(s·n + i)·Cout + co`) equals the gating
value `lambdas s i` times the ungated rotated weight (the 9×9 rotation
operator for angle `thetas s i` applied to the taps of `KernelBank[i]`),
with no cross-variant mixing; in particular gating 0 gives an all-zero
slice and gating 1 gives the ungated rotated weight. -/
theorem synthesizer_gating_linearity (b n Cout Cin : ℕ)
    (w : ℕ → ℕ → ℕ → ℕ → ℕ → ℝ) (lambdas thetas : ℕ → ℕ → ℝ)
    (t : Tensor4 ℝ)
    (ht : batchRotateMultiweightReal b n Cout Cin w lambdas thetas = some t)
    (s i co ci u v : ℕ) (hs : s < b) (hi : i < n) (hco : co < Cout)
    (hci : ci < Cin) (hu : u < 3) (hv : v < 3) :
    t.data ((s * n + i) * Cout + co) ci u v =
      lambdas s i * ∑ r ∈ Finset.range 9,
        getRotationMatrix Real.cos Real.sin thetas s i (u * 3 + v) r *
          w i co ci (r / 3) (r % 3) ∧
    (lambdas s i = 0 → t.data ((s * n + i) * Cout + co) ci u v = 0) ∧
    (lambdas s i = 1 → t.data ((s * n + i) * Cout + co) ci u v =
      ∑ r ∈ Finset.range 9,
        getRotationMatrix Real.cos Real.sin thetas s i (u * 3 + v) r *
          w i co ci (r / 3) (r % 3)) := by
  have key : t.data ((s * n + i) * Cout + co) ci u v =
      lambdas s i * ∑ r ∈ Finset.range 9,
        getRotationMatrix Real.cos Real.sin thetas s i (u * 3 + v) r *
          w i co ci (r / 3) (r % 3) := by
    unfold batchRotateMultiweightReal at ht
    simp only [batchRotateMultiweight] at ht
    by_cases hc :
        b * 9 * n * (Cout * Cin) = b * (3 * 3 * 4) * (Cout * Cin)
    · rw [if_pos hc] at ht
      have hCout : 0 < Cout := lt_of_le_of_lt (Nat.zero_le co) hco
      have hCin : 0 < Cin := lt_of_le_of_lt (Nat.zero_le ci) hci
      have hb : 0 < b := lt_of_le_of_lt (Nat.zero_le s) hs
      have hX : 0 < b * (Cout * Cin) := by positivity
      have h9 : b * (Cout * Cin) * (9 * n) = b * (Cout * Cin) * 36 := by
        calc b * (Cout * Cin) * (9 * n)
            = b * 9 * n * (Cout * Cin) := by ring
          _ = b * (3 * 3 * 4) * (Cout * Cin) := hc
          _ = b * (Cout * Cin) * 36 := by ring
      have hn : n = 4 := by
        have := Nat.eq_of_mul_eq_mul_left hX h9
        omega
      subst hn
      obtain rfl : _ = t := Option.some.inj ht
      dsimp only
      have ho1 : ((s * 4 + i) * Cout + co) / (4 * Cout) = s := by
        have he : (s * 4 + i) * Cout + co
            = 4 * Cout * s + (i * Cout + co) := by ring
        have hlt : i * Cout + co < 4 * Cout := by
          have h1 : i * Cout + co < (i + 1) * Cout := by
            have : (i + 1) * Cout = i * Cout + Cout := by ring
            omega
          have h2 : (i + 1) * Cout ≤ 4 * Cout :=
            Nat.mul_le_mul_right Cout (by omega)
          omega
        rw [he, Nat.mul_add_div (by positivity), Nat.div_eq_of_lt hlt,
          Nat.add_zero]
      have ho2 : ((s * 4 + i) * Cout + co) / Cout % 4 = i := by
        have he : (s * 4 + i) * Cout + co
            = Cout * (s * 4 + i) + co := by ring
        rw [he, Nat.mul_add_div hCout, Nat.div_eq_of_lt hco, Nat.add_zero]
        omega
      have ho3 : ((s * 4 + i) * Cout + co) % Cout = co := by
        have he : (s * 4 + i) * Cout + co
            = Cout * (s * 4 + i) + co := by ring
        rw [he, Nat.mul_add_mod, Nat.mod_eq_of_lt hco]
      have hS1 : (co * Cin + ci) / Cin = co := by
        have he : co * Cin + ci = Cin * co + ci := by ring
        rw [he, Nat.mul_add_div hCin, Nat.div_eq_of_lt hci, Nat.add_zero]
      have hS2 : (co * Cin + ci) % Cin = ci := by
        have he : co * Cin + ci = Cin * co + ci := by ring
        rw [he, Nat.mul_add_mod, Nat.mod_eq_of_lt hci]
      rw [ho1, ho2, ho3, hS1, hS2, Finset.mul_sum]
      refine Finset.sum_congr rfl ?_
      intro r hr
      have hr9 : r < 9 := Finset.mem_range.mp hr
      have e1 : (s * 9 + (u * 3 + v)) / 9 = s := by omega
      have e2 : (s * 9 + (u * 3 + v)) % 9 = u * 3 + v := by omega
      have e3 : (i * 9 + r) / 9 = i := by omega
      have e4 : (i * 9 + r) % 9 = r := by omega
      rw [e1, e2, e3, e4]
      ring
    · rw [if_neg hc] at ht
      exact absurd ht (by simp)
  exact ⟨key, fun h => by rw [key, h, zero_mul],
    fun h => by rw [key, h, one_mul]⟩

/-- The tensor produced by the synthesizer at the witness input of C6. -/
noncomputable def gatingWitnessTensor : Tensor4 ℝ :=
  (batchRotateMultiweightReal 1 4 1 1 (fun _ _ _ _ _ => 1) (fun _ _ => 2)
      (fun _ _ => 0)).getD ⟨0, 0, 0, 0, fun _ _ _ _ => 0⟩

/-- Witness for C6 at `b = 1`, `n = 4`, `Cout = Cin = 1`, constant bank
1, gating 2 and angle 0, at output row 0 and tap `(0,0)`. -/
theorem synthesizer_gating_linearity_witness :
    (batchRotateMultiweightReal 1 4 1 1 (fun _ _ _ _ _ => 1)
        (fun _ _ => 2) (fun _ _ => 0) = some gatingWitnessTensor ∧
      (0 : ℕ) < 1 ∧ (0 : ℕ) < 4 ∧ (0 : ℕ) < 3) ∧
    (gatingWitnessTensor.data ((0 * 4 + 0) * 1 + 0) 0 0 0 =
        (2 : ℝ) * ∑ r ∈ Finset.range 9,
          getRotationMatrix Real.cos Real.sin (fun _ _ => 0) 0 0
            (0 * 3 + 0) r * 1 ∧
      ((2 : ℝ) = 0 → gatingWitnessTensor.data ((0 * 4 + 0) * 1 + 0) 0 0 0
          = 0) ∧
      ((2 : ℝ) = 1 → gatingWitnessTensor.data ((0 * 4 + 0) * 1 + 0) 0 0 0
          = ∑ r ∈ Finset.range 9,
              getRotationMatrix Real.cos Real.sin (fun _ _ => 0) 0 0
                (0 * 3 + 0) r * 1)) := by
  have hsome : batchRotateMultiweightReal 1 4 1 1 (fun _ _ _ _ _ => 1)
      (fun _ _ => 2) (fun _ _ => 0) = some gatingWitnessTensor := rfl
  exact ⟨⟨hsome, by norm_num, by norm_num, by norm_num⟩,
    synthesizer_gating_linearity 1 4 1 1 _ _ _ _ hsome 0 0 0 0 0 0
      (by norm_num) (by norm_num) (by norm_num) (by norm_num)
      (by norm_num) (by norm_num)⟩

/-- C1: `batch_rotate_multiweight` does NOT return a weight batch for
every `kernel_number ≥ 1`: at the failing input `B = 1`, `n = 1`,
`Cout = Cin = 1` (zero bank, gating 1, angle 0) the hard-coded
`view(b, 3, 3, 4, Cout, Cin)` of source line 1003 is asked to reinterpret
`1·9·1·1 = 9` elements as `1·36·1 = 36` and raises, so the call errors
out instead of producing a `(B·n·Cout, Cin, 3, 3)` tensor. -/
theorem synthesizer_fails_for_kernel_number_one :
    batchRotateMultiweightReal 1 1 1 1 (fun _ _ _ _ _ => 0)
      (fun _ _ => 1) (fun _ _ => 0) = none := rfl

/-- Zero-padded read of a spatial map of extent `H × W`: positions
outside the map contribute 0, as with the implicit zero padding of
`nn.Conv2d` / `F.conv2d`. -/
def paddedGet (f : ℕ → ℕ → R) (H W : ℕ) (r c : ℤ) : R :=
  if 0 ≤ r ∧ r < (H : ℤ) ∧ 0 ≤ c ∧ c < (W : ℤ) then f r.toNat c.toNat
  else 0

/-- Output spatial extent of a 2-d convolution along one axis, the
standard size formula `⌊(H + 2·pad - dil·(k-1) - 1)/stride⌋ + 1`. -/
def convOutSize (H pad dil k stride : ℕ) : ℕ :=
  (H + 2 * pad - dil * (k - 1) - 1) / stride + 1

/-- The parameters of `RountingFunction` (source lines 821-845):
a depthwise 3×3 convolution without bias, a channel `LayerNorm`
(`LayerNormProxy`, lines 809-818), two linear heads (`fc_alpha` with
bias, `fc_theta` without), and the stored angle bound
`proportion = proportion_degrees / 180 · π` (line 840).  The dropouts
are modelled in evaluation mode (identity). -/
structure RoutingParams (R : Type) where
  in_channels : ℕ
  kernel_number : ℕ
  dwcWeight : ℕ → ℕ → ℕ → R
  lnWeight : ℕ → R
  lnBias : ℕ → R
  lnEps : R
  fcAlphaWeight : ℕ → ℕ → R
  fcAlphaBias : ℕ → R
  fcThetaWeight : ℕ → ℕ → R
  proportion : R

/-- `RountingFunction.forward` (source lines 847-863): depthwise 3×3
convolution (stride 1, padding 1, no bias) → `LayerNormProxy`
(channel-wise LayerNorm at every spatial position, biased variance) →
ReLU → global average pool to `(B, Cin)` → two heads: `alphas`
= `sigmoid(fc_alpha(x))` and `angles`
= `softsign(fc_theta(x)) * proportion`, with
`sigmoid t = 1/(1 + e^(-t))` and `softsign t = t/(1 + |t|)`. -/
def routingForward (expf sqrtf : R → R) (p : RoutingParams R)
    (x : Tensor4 R) : (ℕ → ℕ → R) × (ℕ → ℕ → R) :=
  let C := p.in_channels
  let y1 : ℕ → ℕ → ℕ → ℕ → R := fun b c i j =>
    ∑ u ∈ Finset.range 3, ∑ v ∈ Finset.range 3,
      paddedGet (x.data b c) x.d2 x.d3 ((i + u : ℕ) - (1 : ℤ))
        ((j + v : ℕ) - (1 : ℤ)) * p.dwcWeight c u v
  let y2 : ℕ → ℕ → ℕ → ℕ → R := fun b c i j =>
    let μ := (∑ c2 ∈ Finset.range C, y1 b c2 i j) / (C : R)
    let σ2 := (∑ c2 ∈ Finset.range C, (y1 b c2 i j - μ) ^ 2) / (C : R)
    p.lnWeight c * ((y1 b c i j - μ) / sqrtf (σ2 + p.lnEps)) + p.lnBias c
  let y3 : ℕ → ℕ → ℕ → ℕ → R := fun b c i j => max (y2 b c i j) 0
  let pooled : ℕ → ℕ → R := fun b c =>
    (∑ i ∈ Finset.range x.d2, ∑ j ∈ Finset.range x.d3, y3 b c i j) /
      ((x.d2 * x.d3 : ℕ) : R)
  let alphas : ℕ → ℕ → R := fun b k =>
    1 / (1 + expf (-((∑ c ∈ Finset.range C, p.fcAlphaWeight k c * pooled b c)
      + p.fcAlphaBias k)))
  let angles : ℕ → ℕ → R := fun b k =>
    (∑ c ∈ Finset.range C, p.fcThetaWeight k c * pooled b c) /
        (1 + |∑ c ∈ Finset.range C, p.fcThetaWeight k c * pooled b c|) *
      p.proportion
  (alphas, angles)

/-- `RountingFunction.forward` with the real transcendental functions. -/
noncomputable def routingForwardReal :=
  @routingForward ℝ _ Real.exp Real.sqrt

/-- The state of `AdaptiveRotatedConv2d` (source lines 1012-1046): the
construction hyperparameters (including the stored but otherwise unused
`bias` flag, line 1024), the kernel bank `weight` of shape
`(kernel_number, out_channels, in_channels/groups, k, k)` (lines
1029-1037), the attention bottleneck `fc1` (1×1 convolution
`out_channels → d` without bias followed by `BatchNorm2d(d)`, modelled
in evaluation mode, and ReLU, lines 1040-1042) and the expansion `fc2`
(1×1 convolution `d → out_channels·kernel_number` without bias, line
1044). -/
structure ARCParams (R : Type) where
  in_channels : ℕ
  out_channels : ℕ
  kernel_size : ℕ
  stride : ℕ
  padding : ℕ
  dilation : ℕ
  groups : ℕ
  bias : Bool
  kernel_number : ℕ
  weight : ℕ → ℕ → ℕ → ℕ → ℕ → R
  fc1Weight : ℕ → ℕ → R
  bnWeight : ℕ → R
  bnBias : ℕ → R
  bnMean : ℕ → R
  bnVar : ℕ → R
  bnEps : R
  fc2Weight : ℕ → ℕ → R

/-- The bottleneck width `d = max(in_channels // 16, 32)` of source line
1039 (the source computes it from `in_channels`). -/
def ARCParams.d (m : ARCParams R) : ℕ := max (m.in_channels / 16) 32

/-- `AdaptiveRotatedConv2d.forward` (source lines 1048-1071).
Step 1: the injected routing function produces `(alphas, angles)`
(line 1051).  Step 2: `rotate_func = batch_rotate_multiweight`
synthesizes the weight batch (line 1054); its failure propagates.
Step 3: `x.repeat(1, n, 1, 1).reshape(1, bs·n·Cin, h, w)` (lines
1057-1058), which in row-major index arithmetic reads channel `C` from
sample `C/(n·Cin)`, source channel `C % (n·Cin) % Cin`.  Step 4: a
single grouped convolution with `groups = groups·bs·n` (lines
1061-1062); the guard collects the validity conditions `F.conv2d`
enforces (positive groups and stride, channel/group divisibility, and a
kernel that fits the padded input).  Step 5: the result of shape
`(1, bs·n·Cout, oh, ow)` is reshaped to `(bs, n, Cin, oh, ow)` — the
source (line 1063) writes `Cin` here — which `torch.reshape` accepts
only when the element counts agree; this is the second guard.  Step 6:
attention recombination (lines 1065-1068): sum over variants, global
average pool, `fc1` (1×1 conv, BatchNorm, ReLU), `fc2`, softmax over
the kernel-variant axis of the `(bs, n, Cout, -1)` reshape, and a
weighted sum over variants. -/
def forward (cs sn expf sqrtf : R → R) (m : ARCParams R)
    (rf : Tensor4 R → (ℕ → ℕ → R) × (ℕ → ℕ → R)) (x : Tensor4 R) :
    Option (Tensor4 R) :=
  let bs := x.d0
  let Cin := x.d1
  let h := x.d2
  let w0 := x.d3
  (batchRotateMultiweight cs sn bs m.kernel_number m.out_channels
      (m.in_channels / m.groups) m.weight (rf x).1 (rf x).2).bind fun rw =>
  let xr : ℕ → ℕ → ℕ → ℕ → R := fun _ C i j =>
    x.data (C / (m.kernel_number * Cin)) (C % (m.kernel_number * Cin) % Cin)
      i j
  let G := m.groups * bs * m.kernel_number
  let oh := convOutSize h m.padding m.dilation 3 m.stride
  let ow := convOutSize w0 m.padding m.dilation 3 m.stride
  if 0 < G ∧ 0 < m.stride ∧ bs * m.kernel_number * Cin = G * rw.d1 ∧
      rw.d0 % G = 0 ∧ m.dilation * 2 + 1 ≤ h + 2 * m.padding ∧
      m.dilation * 2 + 1 ≤ w0 + 2 * m.padding then
    let out0 : ℕ → ℕ → ℕ → ℕ → R := fun nb oc oi oj =>
      ∑ ci ∈ Finset.range rw.d1, ∑ u ∈ Finset.range 3,
        ∑ v ∈ Finset.range 3,
          paddedGet (xr nb (oc / (rw.d0 / G) * rw.d1 + ci)) h w0
              ((oi * m.stride + u * m.dilation : ℕ) - (m.padding : ℤ))
              ((oj * m.stride + v * m.dilation : ℕ) - (m.padding : ℤ)) *
            rw.data oc ci u v
    if 1 * rw.d0 * oh * ow = bs * m.kernel_number * Cin * (oh * ow) then
      let out1 : ℕ → ℕ → ℕ → ℕ → ℕ → R := fun β i c oi oj =>
        out0 0 ((β * m.kernel_number + i) * Cin + c) oi oj
      let pooled : ℕ → ℕ → R := fun β c =>
        (∑ oi ∈ Finset.range oh, ∑ oj ∈ Finset.range ow,
            ∑ i ∈ Finset.range m.kernel_number, out1 β i c oi oj) /
          ((oh * ow : ℕ) : R)
      let t1 : ℕ → ℕ → R := fun β e =>
        ∑ c ∈ Finset.range m.out_channels, m.fc1Weight e c * pooled β c
      let t2 : ℕ → ℕ → R := fun β e =>
        max (m.bnWeight e * ((t1 β e - m.bnMean e) /
          sqrtf (m.bnVar e + m.bnEps)) + m.bnBias e) 0
      let t3 : ℕ → ℕ → R := fun β f =>
        ∑ e ∈ Finset.range (ARCParams.d m), m.fc2Weight f e * t2 β e
      let wv : ℕ → ℕ → ℕ → R := fun β i c =>
        expf (t3 β (i * m.out_channels + c)) /
          ∑ i2 ∈ Finset.range m.kernel_number,
            expf (t3 β (i2 * m.out_channels + c))
      some { d0 := bs, d1 := Cin, d2 := oh, d3 := ow,
             data := fun β c oi oj =>
               ∑ i ∈ Finset.range m.kernel_number,
                 wv β i c * out1 β i c oi oj }
    else none
  else none

/-- `AdaptiveRotatedConv2d.forward` with the real transcendental
functions. -/
noncomputable def forwardReal :=
  @forward ℝ _ Real.cos Real.sin Real.exp Real.sqrt

/-- The construction-time shape data fixed by
`AdaptiveRotatedConv2d.__init__`: the kernel-bank extents, the
bottleneck width `d`, the channel counts of the attention submodule
layers, and the softmax axis. -/
structure ARCInitShape where
  kernelNumber : ℕ
  bankCout : ℕ
  bankCin : ℕ
  ksize : ℕ
  d : ℕ
  fc1InChannels : ℕ
  fc1OutChannels : ℕ
  bnChannels : ℕ
  fc2InChannels : ℕ
  fc2OutChannels : ℕ
  softmaxDim : ℕ
  deriving DecidableEq

/-- `AdaptiveRotatedConv2d.__init__` (source lines 1012-1046), modelled
at the level of the shapes it fixes.  The constructor body performs no
validation whatsoever of `kernel_number` (or of any other argument): it
stores the hyperparameters, allocates the kernel bank of shape
`(kernel_number, out_channels, in_channels/groups, k, k)`, computes
`d = max(in_channels // 16, 32)` (line 1039 — from `in_channels`),
builds `fc1 = Conv2d(out_channels, d, 1) + BatchNorm2d(d) + ReLU`
(lines 1040-1042), `fc2 = Conv2d(d, out_channels*kernel_number, 1, 1)`
(line 1044) and `Softmax(dim=1)` (line 1045).  The external parameter
initializers impose no constraint (current PyTorch treats zero-element
tensors as a no-op there), so construction succeeds for every
`kernel_number : ℕ`. -/
def adaptiveRotatedConv2dInit (in_channels out_channels kernel_size
    stride padding dilation groups : ℕ) (bias : Bool)
    (kernel_number : ℕ) : Option ARCInitShape :=
  some { kernelNumber := kernel_number,
         bankCout := out_channels,
         bankCin := in_channels / groups,
         ksize := kernel_size,
         d := max (in_channels / 16) 32,
         fc1InChannels := out_channels,
         fc1OutChannels := max (in_channels / 16) 32,
         bnChannels := max (in_channels / 16) 32,
         fc2InChannels := max (in_channels / 16) 32,
         fc2OutChannels := out_channels * kernel_number,
         softmaxDim := 1 }

theorem sigmoid_mem_unit (t : ℝ) :
    0 < 1 / (1 + Real.exp (-t)) ∧ 1 / (1 + Real.exp (-t)) < 1 := by
  have he : 0 < Real.exp (-t) := Real.exp_pos _
  constructor
  · positivity
  · rw [div_lt_one (by positivity)]
    linarith

theorem softsign_abs_lt_one (z : ℝ) : |z / (1 + |z|)| < 1 := by
  have h1 : (0 : ℝ) < 1 + |z| := by positivity
  rw [abs_div, abs_of_pos h1, div_lt_one h1]
  linarith [abs_nonneg z]

theorem scaled_softsign_bounds (z A : ℝ) (hA : 0 < A) :
    -A < z / (1 + |z|) * A ∧ z / (1 + |z|) * A < A := by
  have habs : |z / (1 + |z|) * A| < A := by
    calc |z / (1 + |z|) * A| = |z / (1 + |z|)| * A := by
          rw [abs_mul, abs_of_pos hA]
      _ < 1 * A := mul_lt_mul_of_pos_right (softsign_abs_lt_one z) hA
      _ = A := one_mul A
  exact abs_lt.mp habs

/-- C7: for every input feature map and parameter values,
`RountingFunction.forward` returns gating values strictly inside
`(0, 1)` (sigmoid of a biased linear projection) and angle values
strictly inside `(-Amax, Amax)` where
`Amax = 40/180·π` is the stored default bound (a bias-free linear
projection through the bounded odd activation `t/(1+|t|)`, scaled by
`Amax`). -/
theorem routing_output_ranges (p : RoutingParams ℝ) (x : Tensor4 ℝ)
    (hp : p.proportion = 40 / 180 * Real.pi) (s k : ℕ) :
    0 < (routingForwardReal p x).1 s k ∧
    (routingForwardReal p x).1 s k < 1 ∧
    -(40 / 180 * Real.pi) < (routingForwardReal p x).2 s k ∧
    (routingForwardReal p x).2 s k < 40 / 180 * Real.pi := by
  have hA : (0 : ℝ) < 40 / 180 * Real.pi := by positivity
  unfold routingForwardReal routingForward
  dsimp only
  rw [hp]
  exact ⟨(sigmoid_mem_unit _).1, (sigmoid_mem_unit _).2,
    (scaled_softsign_bounds _ _ hA).1, (scaled_softsign_bounds _ _ hA).2⟩

/-- Concrete routing parameters for the witness of C7: one channel, one
kernel variant, zero weights, and the default angle bound. -/
noncomputable def routingWitnessParams : RoutingParams ℝ :=
  { in_channels := 1, kernel_number := 1, dwcWeight := fun _ _ _ => 0,
    lnWeight := fun _ => 1, lnBias := fun _ => 0, lnEps := 1 / 100000,
    fcAlphaWeight := fun _ _ => 0, fcAlphaBias := fun _ => 0,
    fcThetaWeight := fun _ _ => 0, proportion := 40 / 180 * Real.pi }

/-- Witness for C7 at a concrete 1×1×1×1 input. -/
theorem routing_output_ranges_witness :
    routingWitnessParams.proportion = 40 / 180 * Real.pi ∧
    (0 < (routingForwardReal routingWitnessParams
        ⟨1, 1, 1, 1, fun _ _ _ _ => 0⟩).1 0 0 ∧
    (routingForwardReal routingWitnessParams
        ⟨1, 1, 1, 1, fun _ _ _ _ => 0⟩).1 0 0 < 1 ∧
    -(40 / 180 * Real.pi) < (routingForwardReal routingWitnessParams
        ⟨1, 1, 1, 1, fun _ _ _ _ => 0⟩).2 0 0 ∧
    (routingForwardReal routingWitnessParams
        ⟨1, 1, 1, 1, fun _ _ _ _ => 0⟩).2 0 0 < 40 / 180 * Real.pi) :=
  ⟨rfl, routing_output_ranges routingWitnessParams
    ⟨1, 1, 1, 1, fun _ _ _ _ => 0⟩ rfl 0 0⟩

/-- The module of spec Scenario A: `kernel_number = 1`,
`Cin = Cout = 4`, stride 1, padding 1, an all-ones kernel bank and
arbitrary concrete attention parameters. -/
noncomputable def scenarioAModule : ARCParams ℝ :=
  { in_channels := 4, out_channels := 4, kernel_size := 3, stride := 1,
    padding := 1, dilation := 1, groups := 1, bias := false,
    kernel_number := 1, weight := fun _ _ _ _ _ => 1,
    fc1Weight := fun _ _ => 0, bnWeight := fun _ => 1,
    bnBias := fun _ => 0, bnMean := fun _ => 0, bnVar := fun _ => 1,
    bnEps := 1 / 100000, fc2Weight := fun _ _ => 0 }

/-- C2: Scenario A does NOT hold on the code.  With `kernel_number = 1`,
gating forced to 1 and angle forced to 0, the forward pass on a
`B = 2, Cin = Cout = 4, H = W = 5` input does not return the plain
convolution with `KernelBank[0]`: the synthesizer's hard-coded
`view(b, 3, 3, 4, Cout, Cin)` (source line 1003) is asked to
reinterpret `2·9·1·16 = 288` elements as `2·36·16 = 1152` and raises,
so the forward call errors out before any convolution is executed. -/
theorem scenario_a_forward_errors :
    forwardReal scenarioAModule (fun _ => (fun _ _ => 1, fun _ _ => 0))
      ⟨2, 4, 5, 5, fun _ _ _ _ => 0⟩ = none := rfl

/-- A module with `kernel_number = 4` (so the synthesizer succeeds) but
`in_channels = 2 ≠ out_channels = 3`. -/
noncomputable def mismatchedChannelsModule : ARCParams ℝ :=
  { in_channels := 2, out_channels := 3, kernel_size := 3, stride := 1,
    padding := 1, dilation := 1, groups := 1, bias := false,
    kernel_number := 4, weight := fun _ _ _ _ _ => 1,
    fc1Weight := fun _ _ => 0, bnWeight := fun _ => 1,
    bnBias := fun _ => 0, bnMean := fun _ => 0, bnVar := fun _ => 1,
    bnEps := 1 / 100000, fc2Weight := fun _ _ => 0 }

/-- C5: the shape contract does NOT hold for every constructed module.
At `kernel_number = 4`, `Cin = 2`, `Cout = 3`, input `(1, 2, 3, 3)`,
stride 1, padding 1, the grouped convolution succeeds and produces
`1·4·3·9 = 108` elements, but line 1063 reshapes them to
`(bs, n, Cin, H', W')` — written with `Cin` where `Cout` is meant —
which asks for `1·4·2·9 = 72` elements and raises, so forward errors
out instead of returning a `(B, Cout, H', W')` tensor.  (For
`kernel_number ≠ 4` forward already fails inside the synthesizer.) -/
theorem forward_shape_contract_fails :
    forwardReal mismatchedChannelsModule
      (fun _ => (fun _ _ => 1, fun _ _ => 0))
      ⟨1, 2, 3, 3, fun _ _ _ _ => 0⟩ = none := rfl

/-- C10: the output of `AdaptiveRotatedConv2d.forward` is independent of
the stored `bias` construction flag: the convolution is executed with
`bias=None` (source line 1061) and no bias term is ever added, so a
module constructed with `bias=True` produces exactly the same outputs
as one with `bias=False` on every input. -/
theorem forward_ignores_bias_flag (m : ARCParams ℝ)
    (rf : Tensor4 ℝ → (ℕ → ℕ → ℝ) × (ℕ → ℕ → ℝ)) (x : Tensor4 ℝ) :
    forwardReal { m with bias := true } rf x =
      forwardReal { m with bias := false } rf x := rfl

/-- C8 counterexample: the bottleneck width is NOT
`max(out_channels/16, 32)`.  At `in_channels = 1024`,
`out_channels = 512` the constructor (source line 1039) sets
`d = max(1024 // 16, 32) = 64`, whereas the claim's
`max(512 // 16, 32) = 32`. -/
theorem attention_reduce_dim_counterexample :
    ¬ (adaptiveRotatedConv2dInit 1024 512 3 1 1 1 1 false 1).map
        ARCInitShape.d = some (max (512 / 16) 32) := by decide

/-- C8 amended: the channel-attention submodule reduces `out_channels`
to `d = max(in_channels/16, 32)` channels (the source computes `d` from
`in_channels`, line 1039) with a 1×1 convolution, normalizes
(`BatchNorm2d(d)`), rectifies, expands with a 1×1 convolution to
`out_channels·kernel_number` channels, and applies softmax over axis 1,
the kernel-variant axis of the `(bs, n, Cout, -1)` reshape. -/
theorem attention_submodule_structure (inc outc ks st pd dl g : ℕ)
    (doBias : Bool) (n : ℕ) :
    ∃ shp, adaptiveRotatedConv2dInit inc outc ks st pd dl g doBias n
        = some shp ∧
      shp.fc1InChannels = outc ∧ shp.d = max (inc / 16) 32 ∧
      shp.fc1OutChannels = shp.d ∧ shp.bnChannels = shp.d ∧
      shp.fc2InChannels = shp.d ∧ shp.fc2OutChannels = outc * n ∧
      shp.softmaxDim = 1 :=
  ⟨_, rfl, rfl, rfl, rfl, rfl, rfl, rfl, rfl⟩

/-- C9 counterexample: constructing with `kernel_number = 0 < 1` is NOT
a construction-time error — the constructor performs no validation and
returns a module (with an empty kernel bank). -/
theorem construction_accepts_zero_kernel_number :
    (adaptiveRotatedConv2dInit 64 64 3 1 1 1 1 false 0).isSome = true :=
  rfl

/-- C9 amended: the constructor of `AdaptiveRotatedConv2d` performs no
validation of `kernel_number` (or of any other argument): construction
succeeds for every `kernel_number : ℕ`, including 0; negative counts
are outside the shape domain and could only fail inside the external
tensor library. -/
theorem construction_never_validates_kernel_number
    (inc outc ks st pd dl g : ℕ) (doBias : Bool) (n : ℕ) :
    (adaptiveRotatedConv2dInit inc outc ks st pd dl g doBias n).isSome
      = true := rfl

end ARC
